import Mathlib

/-!
Formal model of the counterfactual driving-data synthesis core
(`Counterfactual_Data_Synthesis`): the seeded perturbation sampler
(`src/cfdg/perturb/perturbation.py`), the kinematic bicycle model
(`src/cfdg/sim/bicycle_model.py`), the fixed-step rollout loop
(`src/cfdg/sim/rollout.py`), the recovery state machine of the pipeline
controller (`tools/run_pipeline.py`), the labeler
(`src/cfdg/label/labeler.py`) and the map off-road guard
(`src/cfdg/map/map_api.py`).

Modelling conventions:
- Python floats are modelled as rationals (`ℚ`); the transcendental library
  functions (`math.cos`, `math.sin`, `math.tan`, `math.sqrt`) and the
  external geometry / map backends (shapely, nuPlan maps) are abstracted as
  explicit function parameters, so every theorem quantifies over all
  possible behaviours of those collaborators.
- `hashlib.sha256` is implemented concretely (FIPS 180-4) over byte lists,
  so seed-derivation facts are settled on the real digest values.
- Python machine integers are arbitrary-precision; bit masks are expressed
  with `Nat` bitwise operators, exactly as the source applies them.
-/

/-! ## SHA-256 (model of `hashlib.sha256`, FIPS 180-4) -/

/-- The 32-bit word modulus `2^32` used by SHA-256 arithmetic. -/
def M32 : ℕ := 4294967296

/-- Addition of 32-bit words, modulo `2^32`. -/
def add32 (a b : ℕ) : ℕ := (a + b) % M32

/-- Right rotation of a 32-bit word by `n` bits, in arithmetic form. -/
def rotr32 (x n : ℕ) : ℕ := x % 2 ^ n * 2 ^ (32 - n) + x / 2 ^ n

/-- Logical right shift of a 32-bit word by `n` bits. -/
def shr32 (x n : ℕ) : ℕ := x / 2 ^ n

/-- Bitwise complement of a 32-bit word. -/
def not32 (x : ℕ) : ℕ := (M32 - 1) - x

/-- SHA-256 big Sigma-0 function. -/
def bigSigma0 (x : ℕ) : ℕ := (rotr32 x 2) ^^^ (rotr32 x 13) ^^^ (rotr32 x 22)

/-- SHA-256 big Sigma-1 function. -/
def bigSigma1 (x : ℕ) : ℕ := (rotr32 x 6) ^^^ (rotr32 x 11) ^^^ (rotr32 x 25)

/-- SHA-256 small sigma-0 function. -/
def smallSigma0 (x : ℕ) : ℕ := (rotr32 x 7) ^^^ (rotr32 x 18) ^^^ (shr32 x 3)

/-- SHA-256 small sigma-1 function. -/
def smallSigma1 (x : ℕ) : ℕ := (rotr32 x 17) ^^^ (rotr32 x 19) ^^^ (shr32 x 10)

/-- SHA-256 choice function. -/
def chFn (e f g : ℕ) : ℕ := (e &&& f) ^^^ (not32 e &&& g)

/-- SHA-256 majority function. -/
def majFn (a b c : ℕ) : ℕ := (a &&& b) ^^^ (a &&& c) ^^^ (b &&& c)

/-- The 64 SHA-256 round constants. -/
def shaK : List ℕ :=
  [1116352408, 1899447441, 3049323471, 3921009573, 961987163, 1508970993,
   2453635748, 2870763221, 3624381080, 310598401, 607225278, 1426881987,
   1925078388, 2162078206, 2614888103, 3248222580, 3835390401, 4022224774,
   264347078, 604807628, 770255983, 1249150122, 1555081692, 1996064986,
   2554220882, 2821834349, 2952996808, 3210313671, 3336571891, 3584528711,
   113926993, 338241895, 666307205, 773529912, 1294757372, 1396182291,
   1695183700, 1986661051, 2177026350, 2456956037, 2730485921, 2820302411,
   3259730800, 3345764771, 3516065817, 3600352804, 4094571909, 275423344,
   430227734, 506948616, 659060556, 883997877, 958139571, 1322822218,
   1537002063, 1747873779, 1955562222, 2024104815, 2227730452, 2361852424,
   2428436474, 2756734187, 3204031479, 3329325298]

/-- The SHA-256 initial hash value. -/
def shaH0 : List ℕ :=
  [1779033703, 3144134277, 1013904242, 2773480762,
   1359893119, 2600822924, 528734635, 1541459225]

/-- Extend the 16 message words of a block to the 64 schedule words; `fuel`
counts the words still to be appended (48 at the top call). -/
def extendSchedule : ℕ → List ℕ → List ℕ
  | 0, ws => ws
  | fuel + 1, ws =>
      let n := ws.length
      let w15 := ws.getD (n - 15) 0
      let w2 := ws.getD (n - 2) 0
      let w16 := ws.getD (n - 16) 0
      let w7 := ws.getD (n - 7) 0
      extendSchedule fuel (ws ++ [add32 (add32 (add32 w16 (smallSigma0 w15)) w7) (smallSigma1 w2)])

/-- One round of the SHA-256 compression function on the eight-word working
state, consuming one (round constant, schedule word) pair. -/
def shaRound (st : List ℕ) (kw : ℕ × ℕ) : List ℕ :=
  match st with
  | [a, b, c, d, e, f, g, h] =>
      let t1 := add32 (add32 (add32 (add32 h (bigSigma1 e)) (chFn e f g)) kw.1) kw.2
      let t2 := add32 (bigSigma0 a) (majFn a b c)
      [add32 t1 t2, a, b, c, add32 d t1, e, f, g]
  | other => other

/-- Compress one 16-word message block into the running hash value. -/
def shaCompress (hs : List ℕ) (block : List ℕ) : List ℕ :=
  let ws := extendSchedule 48 block
  let fin := (shaK.zip ws).foldl shaRound hs
  (hs.zip fin).map fun p => add32 p.1 p.2

/-- Pack padded bytes into 32-bit words, big-endian. -/
def toWords : List ℕ → List ℕ
  | b0 :: b1 :: b2 :: b3 :: rest => (b0 * 16777216 + b1 * 65536 + b2 * 256 + b3) :: toWords rest
  | _ => []

/-- Split a padded byte list into 16-word (64-byte) blocks; `fuel` bounds the
recursion by the byte count so the definition reduces in the kernel. -/
def chunk64Aux : ℕ → List ℕ → List (List ℕ)
  | 0, _ => []
  | _ + 1, [] => []
  | fuel + 1, b :: bs => toWords ((b :: bs).take 64) :: chunk64Aux fuel ((b :: bs).drop 64)

/-- Split a padded byte list into its 64-byte blocks. -/
def chunk64 (bs : List ℕ) : List (List ℕ) := chunk64Aux bs.length bs

/-- SHA-256 padding: append the `0x80` byte, zero bytes to 56 mod 64, then the
message bit length as eight big-endian bytes. -/
def shaPad (msg : List ℕ) : List ℕ :=
  let len := msg.length
  let z := (64 - ((len + 9) % 64)) % 64
  let bitLen := 8 * len
  msg ++ [128] ++ List.replicate z 0 ++
    [bitLen / 2 ^ 56 % 256, bitLen / 2 ^ 48 % 256, bitLen / 2 ^ 40 % 256, bitLen / 2 ^ 32 % 256,
     bitLen / 2 ^ 24 % 256, bitLen / 2 ^ 16 % 256, bitLen / 2 ^ 8 % 256, bitLen % 256]

/-- SHA-256 digest of a byte list, read as the 256-bit natural number whose
big-endian hex expansion is Python's `hexdigest()` string. -/
def sha256 (msg : List ℕ) : ℕ :=
  let hs := (chunk64 (shaPad msg)).foldl shaCompress shaH0
  hs.foldl (fun acc h => acc * M32 + h) 0

/-- UTF-8 encoding of one character (model of `str.encode("utf-8")` per
character). -/
def utf8Bytes (c : Char) : List ℕ :=
  let n := c.toNat
  if n < 128 then [n]
  else if n < 2048 then [192 + n / 64, 128 + n % 64]
  else if n < 65536 then [224 + n / 4096, 128 + n / 64 % 64, 128 + n % 64]
  else [240 + n / 262144, 128 + n / 4096 % 64, 128 + n / 64 % 64, 128 + n % 64]

/-- UTF-8 byte sequence of a string (model of `s.encode("utf-8")`). -/
def strBytes (s : String) : List ℕ := (s.data.map utf8Bytes).flatten

/-! ## Perturbation sampler (`src/cfdg/perturb/perturbation.py`) -/

/-- Model of `_seed_from(scene_token, global_seed)`:
`(int(sha256(token.encode("utf-8")).hexdigest()[:16], 16) ^ global_seed) & 0xFFFFFFFF`.
The first 16 hex digits of the digest are its 64 most significant bits, i.e.
the digest value divided by `2^192`.  The global seed is the configured
integer seed (non-negative in every shipped configuration). -/
def seed_from (scene_token : String) (global_seed : ℕ) : ℕ :=
  ((sha256 (strBytes scene_token) / 2 ^ 192) ^^^ global_seed) &&& 0xFFFFFFFF

/-- Modelled from the spec: the seed derivation as the specification words
describe it — hash `scene_token`, truncate the digest to a fixed-width
64-bit integer, XOR-combine with the global seed, with no further
truncation ("derive a 64-bit seed").  Declared only to be compared against
`seed_from`, which is the derivation the source actually performs. -/
def seed_from_spec64 (scene_token : String) (global_seed : ℕ) : ℕ :=
  (sha256 (strBytes scene_token) / 2 ^ 192) ^^^ global_seed

/-- One configuration value as `_sample_range` / `_sample_int_range` see it:
Python `None`, a scalar that `float()` / `int()` accepts, a two-element
`[low, high]` list, or anything else (which the `float()` fallback turns
into `0.0` via the caught exception). -/
inductive CfgVal where
  | none
  | scalar (q : ℚ)
  | range (lo hi : ℚ)
  | malformed
deriving DecidableEq

/-- Abstract interface of Python's `random.Random`: a state type `S`, seeded
construction, and the three draw operations `sample` uses, each returning
the drawn value together with the advanced generator state.  `choiceIdx s n`
models `rng.choice` over a sequence of length `n` by drawing an index. -/
structure RngOps (S : Type) where
  init : ℕ → S
  choiceIdx : S → ℕ → ℕ × S
  uniform : S → ℚ → ℚ → ℚ × S
  randint : S → ℤ → ℤ → ℤ × S

/-- The per-kind sub-configuration `cfg.get(kind, {})`, holding exactly the
keys `sample` reads from it (a missing key is `CfgVal.none`). -/
structure PerturbSubCfg where
  steer_delta : CfgVal
  acc_delta : CfgVal
  lateral_offset : CfgVal
  start_t : CfgVal
  start_t_range : CfgVal
  duration_sec : CfgVal
  duration_steps : CfgVal

/-- The resolved perturbation configuration: the `types` list (after the
`["impulse"]` default) and the per-kind sub-configurations. -/
structure PerturbCfg where
  types : List String
  sub : String → PerturbSubCfg

/-- The slice of the application configuration that `PerturbationFactory`
reads: the global integer seed, the perturbation section, and the two
places `_extract_dt` probes for the simulation step size. -/
structure AppCfg where
  seed : ℕ
  perturb : PerturbCfg
  sample_dt : Option ℚ
  top_dt : Option ℚ

/-- Model of `_extract_dt`: take `config["sample"]["dt"]`, else
`config["dt"]`; report `None` when the result is `None` or `0`. -/
def extract_dt (c : AppCfg) : Option ℚ :=
  match c.sample_dt.orElse (fun _ => c.top_dt) with
  | Option.none => Option.none
  | Option.some q => if q = 0 then Option.none else Option.some q

/-- Truncation of a rational toward zero, the behaviour of Python's `int()`
on a float. -/
def truncQ (q : ℚ) : ℤ := q.num / (q.den : ℤ)

/-- Model of `_sample_range(rng, value)`: `None` gives `0.0`; a two-element
list draws `rng.uniform(low, high)`; a scalar is passed through `float()`;
anything else falls back to `0.0`.  Only the uniform branch touches the
generator. -/
def sample_range {S : Type} (R : RngOps S) (s : S) : CfgVal → ℚ × S
  | CfgVal.none => (0, s)
  | CfgVal.scalar q => (q, s)
  | CfgVal.range lo hi => R.uniform s lo hi
  | CfgVal.malformed => (0, s)

/-- Model of `_sample_int_range(rng, value)`: `None` gives `0`; a two-element
list draws `rng.randint(int(low), int(high))`; a scalar is passed through
`int()`; anything else falls back to `0`. -/
def sample_int_range {S : Type} (R : RngOps S) (s : S) : CfgVal → ℤ × S
  | CfgVal.none => (0, s)
  | CfgVal.scalar q => (truncQ q, s)
  | CfgVal.range lo hi => R.randint s (truncQ lo) (truncQ hi)
  | CfgVal.malformed => (0, s)

/-- The sampled counterfactual event (`Perturbation` dataclass). -/
structure Perturbation where
  kind : String
  steer_delta : ℚ
  acc_delta : ℚ
  start_t : ℚ
  duration : ℚ
  lateral_offset : ℚ
deriving DecidableEq

namespace PerturbationFactory

/-- Model of `PerturbationFactory.sample(scene_token)`.  The ambient value
`amb : A` stands for every piece of process state outside the factory (for
instance the `random` module's global generator, or how often `sample` was
called before); the source constructs its own `random.Random` from
`_seed_from(scene_token, seed)` and draws everything from it, so the model
threads only that generator and returns the ambient state untouched.  Draw
order follows the source exactly: kind, `steer_delta`, `acc_delta`,
`lateral_offset`, `start_t` (re-drawn from `start_t_range` when zero),
`duration_sec` (replaced by `duration_steps * dt` when zero and a positive
step count is drawn). -/
def sample {S A : Type} (R : RngOps S) (amb : A) (cfg : AppCfg) (scene_token : String) :
    Perturbation × A :=
  let rng0 := R.init (seed_from scene_token cfg.seed)
  let types := cfg.perturb.types
  let kindRng :=
    if types.isEmpty then ("impulse", rng0)
    else
      let ir := R.choiceIdx rng0 types.length
      (types.getD (ir.1 % types.length) "impulse", ir.2)
  let kind := kindRng.1
  let sub := cfg.perturb.sub kind
  let sd := sample_range R kindRng.2 sub.steer_delta
  let ad := sample_range R sd.2 sub.acc_delta
  let lo := sample_range R ad.2 sub.lateral_offset
  let st0 := sample_range R lo.2 sub.start_t
  let st := if st0.1 = 0 then sample_range R st0.2 sub.start_t_range else st0
  let dur0 := sample_range R st.2 sub.duration_sec
  let dur :=
    if dur0.1 = 0 then
      let ds := sample_int_range R dur0.2 sub.duration_steps
      if 0 < ds.1 then
        match extract_dt cfg with
        | Option.some dt => ((ds.1 : ℚ) * dt, ds.2)
        | Option.none => ((ds.1 : ℚ), ds.2)
      else (dur0.1, ds.2)
    else dur0
  (⟨kind, sd.1, ad.1, st.1, dur.1, lo.1⟩, amb)

end PerturbationFactory

/-! ## Kinematic bicycle model (`src/cfdg/sim/bicycle_model.py`) -/

/-- Abstract interface for the transcendental functions the source takes
from Python's `math` module. -/
structure TrigOps where
  cos : ℚ → ℚ
  sin : ℚ → ℚ
  tan : ℚ → ℚ

/-- Ego pose and scalar speed at one instant (`VehicleState` dataclass). -/
structure VehicleState where
  x : ℚ
  y : ℚ
  yaw : ℚ
  v : ℚ
deriving DecidableEq

/-- Immutable physical bounds (`VehicleParams` dataclass). -/
structure VehicleParams where
  wheel_base : ℚ
  steer_limit : ℚ
  a_min : ℚ
  a_max : ℚ
  a_lat_max : ℚ
deriving DecidableEq

namespace BicycleModel

/-- Model of `bicycle_model.step`: clamp `steer` to
`[-steer_limit, steer_limit]` and `accel` to `[a_min, a_max]`, then the
forward-Euler kinematic bicycle update. -/
def step (trig : TrigOps) (state : VehicleState) (steer accel dt : ℚ)
    (params : VehicleParams) : VehicleState :=
  let steer1 := max (-params.steer_limit) (min params.steer_limit steer)
  let accel1 := max params.a_min (min params.a_max accel)
  { x := state.x + state.v * trig.cos state.yaw * dt
    y := state.y + state.v * trig.sin state.yaw * dt
    yaw := state.yaw + state.v / params.wheel_base * trig.tan steer1 * dt
    v := state.v + accel1 * dt }

end BicycleModel

/-! ## Fixed-step rollout loop (`src/cfdg/sim/rollout.py`) -/

/-- One simulated step's full record (`SimFrame` dataclass). -/
structure SimFrame where
  t : ℚ
  state : VehicleState
  cmd_steer : ℚ
  cmd_accel : ℚ
  perturb_on : Bool
deriving DecidableEq

/-- A control callback.  Python closures mutate captured state, so the model
threads an explicit closure state `C` through each call: given the closure
state, the vehicle state and the time, the callback returns
`(steer, accel)` and its updated closure state. -/
def ControlFn (C : Type) : Type := C → VehicleState → ℚ → (ℚ × ℚ) × C

/-- A perturbation callback, likewise with explicit closure state: from
`(t, state, steer, accel)` it returns the overlaid `(steer, accel)`, the
perturbation-active flag, and its updated closure state. -/
def PerturbFn (C : Type) : Type := C → ℚ → VehicleState → ℚ → ℚ → (ℚ × ℚ × Bool) × C

namespace Simulator

/-- One iteration of the rollout loop body, acting on the loop state
`(vehicle state, t, closure state)`: call `control_fn`, optionally overlay
`perturb_fn`, advance the vehicle model, build the `SimFrame`, advance `t`
by `dt`. -/
def oneIter {C : Type} (trig : TrigOps) (params : VehicleParams) (dt : ℚ)
    (control_fn : ControlFn C) (perturb_fn : Option (PerturbFn C))
    (σ : VehicleState × ℚ × C) : SimFrame × (VehicleState × ℚ × C) :=
  let state := σ.1
  let t := σ.2.1
  let c := σ.2.2
  let sa := control_fn c state t
  let steer0 := sa.1.1
  let accel0 := sa.1.2
  let overlaid :=
    match perturb_fn with
    | Option.none => ((steer0, accel0, false), sa.2)
    | Option.some pf => pf sa.2 t state steer0 accel0
  let steer := overlaid.1.1
  let accel := overlaid.1.2.1
  let pOn := overlaid.1.2.2
  let state1 := BicycleModel.step trig state steer accel dt params
  (⟨t, state1, steer, accel, pOn⟩, (state1, t + dt, overlaid.2))

/-- The loop-state successor: the effect of one iteration on
`(vehicle state, t, closure state)`. -/
def nextLoop {C : Type} (trig : TrigOps) (params : VehicleParams) (dt : ℚ)
    (control_fn : ControlFn C) (perturb_fn : Option (PerturbFn C))
    (σ : VehicleState × ℚ × C) : VehicleState × ℚ × C :=
  (oneIter trig params dt control_fn perturb_fn σ).2

/-- The remaining iterations of the rollout loop from loop state `σ`. -/
def rolloutAux {C : Type} (trig : TrigOps) (params : VehicleParams) (dt : ℚ)
    (control_fn : ControlFn C) (perturb_fn : Option (PerturbFn C)) :
    ℕ → (VehicleState × ℚ × C) → List SimFrame
  | 0, _ => []
  | n + 1, σ =>
      (oneIter trig params dt control_fn perturb_fn σ).1 ::
        rolloutAux trig params dt control_fn perturb_fn n
          (oneIter trig params dt control_fn perturb_fn σ).2

/-- Model of `Simulator.rollout(init, steps, dt, control_fn, perturb_fn)`:
exactly `steps` iterations starting at `t = 0` from initial closure state
`c0`. -/
def rollout {C : Type} (trig : TrigOps) (params : VehicleParams)
    (init : VehicleState) (steps : ℕ) (dt : ℚ) (control_fn : ControlFn C)
    (perturb_fn : Option (PerturbFn C)) (c0 : C) : List SimFrame :=
  rolloutAux trig params dt control_fn perturb_fn steps (init, 0, c0)

end Simulator

/-! ## Recovery state machine (`tools/run_pipeline.py`, `control_with_recovery`) -/

/-- The recovery thresholds read from the `recover` (and `label`) sections of
the configuration in `main`: `cte_threshold`, `yaw_threshold`,
`pid_gain_scale`, `min_frames`, `window_sec`, `desired_speed_recover`, and
the `eps_cte` / `eps_yaw` tolerances the exit test reads from the label
section.  `min_frames` is `int(...)` in the source; a negative configured
value behaves exactly like `0` against the never-negative counter, so it is
modelled as a natural number. -/
structure RecoverCfg where
  cte_threshold : ℚ
  yaw_threshold : ℚ
  pid_gain_scale : ℚ
  min_frames : ℕ
  window_sec : ℚ
  desired_speed_recover : ℚ
  eps_cte : ℚ
  eps_yaw : ℚ

/-- The mutable closure state of `control_with_recovery`: `recover_active`
and `recover_ok_frames`. -/
structure RecoverySt where
  active : Bool
  okFrames : ℕ
deriving DecidableEq

/-- The closure state at rollout start: `recover_active = False`,
`recover_ok_frames = 0`. -/
def recoverInit : RecoverySt := ⟨false, 0⟩

/-- Everything one call of `control_with_recovery` reads besides the closure
state: the step time `t`, the lane-tracking errors `cte` and `heading_err`
computed by `_compute_errors` from the map query, the ego speed `state.v`,
and the base commands `steer` / `accel` produced by the PID and IDM
controllers. -/
structure RecInput where
  t : ℚ
  cte : ℚ
  heading_err : ℚ
  v : ℚ
  steer : ℚ
  accel : ℚ

/-- The result of one call of `control_with_recovery`: the commands actually
returned, the updated closure state, and `inRecovery`, the value of
`recover_active` at the branch test on line 250 (true exactly when the
recovery branch — gain scaling, forced deceleration, exit counter — ran
during this step). -/
structure RecoveryOut where
  steer : ℚ
  accel : ℚ
  st : RecoverySt
  inRecovery : Bool
deriving DecidableEq

/-- Model of one call of `control_with_recovery(state, t)` with the base
commands and errors supplied as inputs.  Mirrors the source order: threshold
entry (line 245), forced window from the end of the perturbation through the
trailing `window_sec` (line 247), then — when recovering — gain scaling,
forced deceleration above `desired_speed_recover`, the consecutive-good-
frame counter, and the exit test against `min_frames`. -/
def control_with_recovery (cfg : RecoverCfg) (pt : Perturbation)
    (st : RecoverySt) (i : RecInput) : RecoveryOut :=
  let active1 := if |i.cte| > cfg.cte_threshold ∨ |i.heading_err| > cfg.yaw_threshold then
    true else st.active
  let active2 := if pt.start_t + pt.duration ≤ i.t ∧
      i.t ≤ pt.start_t + pt.duration + cfg.window_sec then true else active1
  if active2 then
    let steer1 := i.steer * cfg.pid_gain_scale
    let accel1 := if i.v > cfg.desired_speed_recover then min i.accel (-1) else i.accel
    let ok := if |i.cte| ≤ cfg.eps_cte ∧ |i.heading_err| ≤ cfg.eps_yaw then st.okFrames + 1 else 0
    let active3 := if cfg.min_frames ≤ ok then false else active2
    ⟨steer1, accel1, ⟨active3, ok⟩, true⟩
  else
    ⟨i.steer, i.accel, ⟨active2, st.okFrames⟩, false⟩

/-- The closure state after `control_with_recovery` has processed a sequence
of simulation steps in order. -/
def runRecovery (cfg : RecoverCfg) (pt : Perturbation) :
    RecoverySt → List RecInput → RecoverySt
  | st, [] => st
  | st, i :: rest => runRecovery cfg pt (control_with_recovery cfg pt st i).st rest

/-- A frame is good when both errors are within the exit tolerances
(`|cte| <= eps_cte and |heading_err| <= eps_yaw`, line 257). -/
def goodFrame (cfg : RecoverCfg) (i : RecInput) : Prop :=
  |i.cte| ≤ cfg.eps_cte ∧ |i.heading_err| ≤ cfg.eps_yaw

instance (cfg : RecoverCfg) (i : RecInput) : Decidable (goodFrame cfg i) := by
  unfold goodFrame; infer_instance

/-- The consecutive-good-frame count over a step sequence, starting from a
carried-in count `c`: incremented by each good frame, reset to zero by each
bad one.  This is exactly how `recover_ok_frames` evolves across steps that
are all processed in the recovery branch. -/
def consecGood (cfg : RecoverCfg) (c : ℕ) : List RecInput → ℕ
  | [] => c
  | i :: rest => consecGood cfg (if goodFrame cfg i then c + 1 else 0) rest

/-! ## Labeler (`src/cfdg/label/labeler.py`) -/

/-- Ground-truth agent observation (`AgentState` dataclass of
`scene_loader.py`). -/
structure AgentState where
  track_token : String
  t : ℚ
  x : ℚ
  y : ℚ
  yaw : ℚ
  v : ℚ
  length : ℚ
  width : ℚ
  obj_type : String

/-- Ego ground-truth observation (`EgoState` dataclass of
`scene_loader.py`). -/
structure EgoState where
  t : ℚ
  x : ℚ
  y : ℚ
  yaw : ℚ
  v : ℚ
  a : ℚ
  steer : ℚ

/-- One ground-truth frame (`Frame` dataclass of `scene_loader.py`). -/
structure Frame where
  t : ℚ
  ego : EgoState
  agents : List AgentState

/-- Aggregate outcome of one rollout (`Labels` dataclass).  `min_ttc` is an
optional rational, `Option.none` standing for the float `+infinity` it is
initialized to. -/
structure Labels where
  collision : Bool
  off_road : Bool
  is_recovered : Bool
  min_ttc : Option ℚ
deriving DecidableEq

/-- The label thresholds `Labeler.compute` reads from its configuration. -/
structure LabelCfg where
  ego_length : ℚ
  ego_width : ℚ
  agent_length : ℚ
  agent_width : ℚ
  recover_time : ℚ
  eps_cte : ℚ
  eps_yaw : ℚ

/-- Abstract interface for the labeler's external collaborators: the
`math.sqrt` call in the distance computation is `sqrt`; `is_off_road` is the map
query on a footprint polygon; `intersects` is shapely's oriented-rectangle
intersection test; `errors (x, y, yaw)` is `_compute_errors` against the
map centerline (a map query plus float geometry). -/
structure LabelOracles where
  sqrt : ℚ → ℚ
  is_off_road : List (ℚ × ℚ) → Bool
  intersects : List (ℚ × ℚ) → List (ℚ × ℚ) → Bool
  errors : ℚ → ℚ → ℚ → ℚ × ℚ

/-- Model of `_box_polygon(x, y, yaw, length, width)`: the four corners of
the oriented rectangle, rotated by `yaw` and translated to `(x, y)`, in the
source's corner order. -/
def box_polygon (trig : TrigOps) (x y yaw length width : ℚ) : List (ℚ × ℚ) :=
  let dx := length / 2
  let dy := width / 2
  let c := trig.cos yaw
  let s := trig.sin yaw
  [(-dx, -dy), (-dx, dy), (dx, dy), (dx, -dy)].map fun p =>
    (p.1 * c - p.2 * s + x, p.1 * s + p.2 * c + y)

/-- Running accumulator of `Labeler.compute`: the sticky booleans and the
running minimum TTC (`Option.none` is the initial `+infinity`). -/
structure LabelAcc where
  collision : Bool
  off_road : Bool
  recovered : Bool
  min_ttc : Option ℚ
deriving DecidableEq

/-- The accumulator at loop entry: all labels false, `min_ttc = inf`. -/
def labelInit : LabelAcc := ⟨false, false, false, Option.none⟩

/-- Fold a new candidate into the running minimum TTC (`min(min_ttc, q)`
with `min_ttc` initialized to `+infinity`). -/
def updMin (m : Option ℚ) (q : ℚ) : Option ℚ :=
  match m with
  | Option.none => Option.some q
  | Option.some a => Option.some (min a q)

/-- Model of the per-agent body of `Labeler.compute`'s inner loop: default
dimensions for non-positive agent extents, the oriented-rectangle collision
test (sticky), and the TTC update gated on closing speed
`rel_speed > 0.1`. -/
def agentUpd (trig : TrigOps) (ora : LabelOracles) (cfg : LabelCfg)
    (sim : SimFrame) (egoPoly : List (ℚ × ℚ)) (acc : LabelAcc)
    (agent : AgentState) : LabelAcc :=
  let length := if agent.length > 0 then agent.length else cfg.agent_length
  let width := if agent.width > 0 then agent.width else cfg.agent_width
  let agentPoly := box_polygon trig agent.x agent.y agent.yaw length width
  let collision1 := if ora.intersects egoPoly agentPoly then true else acc.collision
  let dist := ora.sqrt ((agent.x - sim.state.x) ^ 2 + (agent.y - sim.state.y) ^ 2)
  let rel_speed := sim.state.v - agent.v
  let ttc1 := if rel_speed > 1 / 10 then updMin acc.min_ttc (dist / rel_speed) else acc.min_ttc
  { acc with collision := collision1, min_ttc := ttc1 }

/-- The agents contributed by scenario frame `idx`: the recorded agents when
the index is within the scenario, the empty list beyond its recorded
length. -/
def agentsAt (scenario_frames : List Frame) (idx : ℕ) : List AgentState :=
  match scenario_frames[idx]? with
  | Option.some f => f.agents
  | Option.none => []

/-- Model of the per-frame body of `Labeler.compute`'s outer loop at frame
index `idx`: the sticky off-road query on the ego footprint, the inner
agent loop, and the sticky recovery test `t >= recover_time` with both
errors within tolerance. -/
def frameUpd (trig : TrigOps) (ora : LabelOracles) (cfg : LabelCfg)
    (scenario_frames : List Frame) (acc : LabelAcc) (iv : ℕ × SimFrame) : LabelAcc :=
  let sim := iv.2
  let egoPoly := box_polygon trig sim.state.x sim.state.y sim.state.yaw cfg.ego_length cfg.ego_width
  let off1 := acc.off_road || ora.is_off_road egoPoly
  let acc1 := (agentsAt scenario_frames iv.1).foldl
    (agentUpd trig ora cfg sim egoPoly) { acc with off_road := off1 }
  let recovered1 :=
    if cfg.recover_time ≤ sim.t then
      let ce := ora.errors sim.state.x sim.state.y sim.state.yaw
      if |ce.1| ≤ cfg.eps_cte ∧ |ce.2| ≤ cfg.eps_yaw then true else acc1.recovered
    else acc1.recovered
  { acc1 with recovered := recovered1 }

/-- The labeler accumulator after the first `k` simulated frames have been
processed. -/
def labelAccAt (trig : TrigOps) (ora : LabelOracles) (cfg : LabelCfg)
    (sim_frames : List SimFrame) (scenario_frames : List Frame) (k : ℕ) : LabelAcc :=
  (sim_frames.enum.take k).foldl (frameUpd trig ora cfg scenario_frames) labelInit

namespace Labeler

/-- Model of `Labeler.compute(sim_frames, scenario_frames, map_api)`: the
all-false / infinite default on an empty rollout, otherwise the fold of the
per-frame body over the enumerated frame sequence. -/
def compute (trig : TrigOps) (ora : LabelOracles) (cfg : LabelCfg)
    (sim_frames : List SimFrame) (scenario_frames : List Frame) : Labels :=
  let acc := sim_frames.enum.foldl (frameUpd trig ora cfg scenario_frames) labelInit
  ⟨acc.collision, acc.off_road, acc.recovered, acc.min_ttc⟩

end Labeler

/-! ## Map off-road guard (`src/cfdg/map/map_api.py`, `MapAPI.is_off_road`) -/

namespace MapAPI

/-- Model of `MapAPI.is_off_road(polygon_xy)`.  The first statement of the
source returns `True` for an empty point list before anything else runs;
`backend` stands for the whole remainder of the method (the duck-typed
centroid checkers, the drivable-area polygons and the shapely containment
test), which is consulted only when the list is non-empty. -/
def is_off_road (backend : List (ℚ × ℚ) → Bool) (polygon_xy : List (ℚ × ℚ)) : Bool :=
  if polygon_xy.isEmpty then true else backend polygon_xy

end MapAPI

/-! ## Order on label accumulators, and concrete fixtures -/

/-- Order on optional TTC values with `Option.none` as `+infinity`:
`ttcLE x y` says `x <= y`. -/
def ttcLE (x y : Option ℚ) : Prop :=
  match x, y with
  | _, Option.none => True
  | Option.none, Option.some _ => False
  | Option.some a, Option.some b => a ≤ b

/-- Pointwise progress order on label accumulators: sticky booleans may only
turn true, and the running minimum TTC may only decrease. -/
def labelAccLE (a b : LabelAcc) : Prop :=
  (a.collision = true → b.collision = true) ∧
  (a.off_road = true → b.off_road = true) ∧
  (a.recovered = true → b.recovered = true) ∧
  ttcLE b.min_ttc a.min_ttc

/-- Degenerate transcendental functions (`cos = 1`, `sin = 0`, `tan = 0`),
agreeing with the true functions at angle `0`; used to instantiate the
trig-parametric theorems on concrete inputs. -/
def trigZero : TrigOps := ⟨fun _ => 1, fun _ => 0, fun _ => 0⟩

/-- The all-zero control callback of the rollout test, with trivial closure
state. -/
def ctrlZero : ControlFn Unit := fun c _ _ => ((0, 0), c)

/-- The vehicle parameters of the spec's example scenario 1. -/
def paramsEx : VehicleParams := ⟨14/5, 3/5, -6, 3, 4⟩

/-- The initial state of the spec's example scenarios. -/
def initEx : VehicleState := ⟨0, 0, 0, 1⟩

/-- Concrete label oracles (everything reports benign values); used only to
instantiate oracle-parametric theorems on concrete inputs. -/
def oraZero : LabelOracles := ⟨fun _ => 0, fun _ => false, fun _ _ => false, fun _ _ _ => (0, 0)⟩

/-- The default label thresholds of `Labeler.compute`. -/
def cfgLbl : LabelCfg := ⟨24/5, 2, 24/5, 2, 3, 3/10, 1/10⟩

/-- A simulated frame fixture: the ego at the origin moving at 1 m/s. -/
def frameW : SimFrame := ⟨0, ⟨0, 0, 0, 1⟩, 0, 0, false⟩

/-- A ground-truth ego fixture. -/
def egoW : EgoState := ⟨0, 0, 0, 0, 1, 0, 0⟩

/-- An agent fixture moving at the ego's speed (relative speed `0`, not
closing). -/
def agentW : AgentState := ⟨"agent-1", 0, 5, 0, 0, 1, 4, 2, "vehicle"⟩

/-- A scenario-frame fixture holding the single agent `agentW`. -/
def scenW : Frame := ⟨0, egoW, [agentW]⟩

/-- Recovery thresholds fixture: the pipeline defaults
(`cte_threshold = 0.8`, `yaw_threshold = 0.2`, `pid_gain_scale = 2`,
`min_frames = 5`, `window_sec = 2`, `desired_speed_recover = 6`,
`eps_cte = 0.3`, `eps_yaw = 0.1`). -/
def cfgC1 : RecoverCfg := ⟨8/10, 2/10, 2, 5, 2, 6, 3/10, 1/10⟩

/-- A perturbation fixture active on `t ∈ [0, 1]`. -/
def ptC1 : Perturbation := ⟨"impulse", 1/10, 0, 0, 1, 0⟩

/-- A step input at `t = 0` with zero tracking errors. -/
def iC1 : RecInput := ⟨0, 0, 0, 0, 0, 0⟩

/-- Recovery thresholds fixture with `min_frames = 2` and
`window_sec = 1/5`; all other fields as the pipeline defaults. -/
def cfgC2 : RecoverCfg := ⟨8/10, 2/10, 2, 2, 1/5, 6, 3/10, 1/10⟩

/-- A zero-length perturbation fixture at `t = 0` (forced-recovery window
`[0, 1/5]`). -/
def ptC2 : Perturbation := ⟨"impulse", 0, 0, 0, 0, 0⟩

/-- Step input at `t = 0`, zero errors (a good frame). -/
def iC2a : RecInput := ⟨0, 0, 0, 0, 0, 0⟩

/-- Step input at `t = 1/10`, zero errors (a good frame). -/
def iC2b : RecInput := ⟨1/10, 0, 0, 0, 0, 0⟩

/-- Step input at `t = 1/5`, zero errors (a good frame). -/
def iC2c : RecInput := ⟨1/5, 0, 0, 0, 0, 0⟩

/-- A good step input outside any forced window (`t = 10`). -/
def iGood : RecInput := ⟨10, 0, 0, 0, 0, 0⟩

/-- A bad step input outside any forced window (`t = 10`, `cte = 1`). -/
def iBad : RecInput := ⟨10, 1, 0, 0, 0, 0⟩

/-! ## Theorems -/

set_option maxRecDepth 1000000

/-- C3 (amended): `_seed_from` hashes `scene_token` with SHA-256, truncates
the digest to its 64 most significant bits, XOR-combines that with the
global integer seed, and then truncates the combination to 32 bits — the
generator seed is a 32-bit value, equal to the 64-bit XOR combination
reduced modulo `2^32`. -/
theorem seed_from_truncates_to_32_bits (token : String) (gs : ℕ) :
    seed_from token gs = ((sha256 (strBytes token) / 2 ^ 192) ^^^ gs) % 2 ^ 32 ∧
      seed_from token gs < 2 ^ 32 := by
  have h : seed_from token gs = ((sha256 (strBytes token) / 2 ^ 192) ^^^ gs) % 2 ^ 32 := by
    show ((sha256 (strBytes token) / 2 ^ 192) ^^^ gs) &&& 0xFFFFFFFF = _
    have h32 := Nat.and_pow_two_sub_one_eq_mod ((sha256 (strBytes token) / 2 ^ 192) ^^^ gs) 32
    norm_num at h32 ⊢
    exact h32
  exact ⟨h, h ▸ Nat.mod_lt _ (by norm_num)⟩

/-- C3 (witness): the amended statement evaluated at the test suite's scene
token `"scene-abc"` with global seed `42`. -/
theorem seed_from_truncates_to_32_bits_witness :
    seed_from "scene-abc" 42 =
      ((sha256 (strBytes "scene-abc") / 2 ^ 192) ^^^ 42) % 2 ^ 32 ∧
      seed_from "scene-abc" 42 < 2 ^ 32 :=
  seed_from_truncates_to_32_bits "scene-abc" 42

/-- C3 (counterexample): at `scene_token = "scene-abc"`, `seed = 42` — the
inputs of the repository's own determinism test — the seed the source
derives is the 32-bit value `3143401956`, not the 64-bit XOR combination
`2271998365121937892` the claim describes: the final `& 0xFFFFFFFF` mask of
`_seed_from` discards the upper 32 bits. -/
theorem seed_from_scene_abc_ne_spec64 :
    seed_from "scene-abc" 42 = 3143401956 ∧
      seed_from_spec64 "scene-abc" 42 = 2271998365121937892 ∧
      seed_from "scene-abc" 42 ≠ seed_from_spec64 "scene-abc" 42 := by
  refine ⟨by decide, by decide, ?_⟩
  intro h
  have h1 : seed_from "scene-abc" 42 = 3143401956 := by decide
  have h2 : seed_from_spec64 "scene-abc" 42 = 2271998365121937892 := by decide
  rw [h1, h2] at h
  exact absurd h (by norm_num)

/-- C4: `PerturbationFactory.sample` is deterministic — its result does not
depend on any ambient process state (modelled by the `amb` argument, e.g.
the global generator or the call count), it leaves that ambient state
untouched, and two calls with the same `(rng implementation, config,
scene_token)` return structurally identical `Perturbation` values, field by
field, because every draw comes from the single generator initialized from
`seed_from scene_token cfg.seed`. -/
theorem sample_independent_of_ambient :
    ∀ (S A : Type) (R : RngOps S) (cfg : AppCfg) (token : String) (amb amb' : A),
      (PerturbationFactory.sample R amb cfg token).2 = amb ∧
      (PerturbationFactory.sample R amb cfg token).1 =
        (PerturbationFactory.sample R amb' cfg token).1 ∧
      (PerturbationFactory.sample R amb cfg token).1.kind =
        (PerturbationFactory.sample R amb' cfg token).1.kind ∧
      (PerturbationFactory.sample R amb cfg token).1.steer_delta =
        (PerturbationFactory.sample R amb' cfg token).1.steer_delta ∧
      (PerturbationFactory.sample R amb cfg token).1.acc_delta =
        (PerturbationFactory.sample R amb' cfg token).1.acc_delta ∧
      (PerturbationFactory.sample R amb cfg token).1.start_t =
        (PerturbationFactory.sample R amb' cfg token).1.start_t ∧
      (PerturbationFactory.sample R amb cfg token).1.duration =
        (PerturbationFactory.sample R amb' cfg token).1.duration ∧
      (PerturbationFactory.sample R amb cfg token).1.lateral_offset =
        (PerturbationFactory.sample R amb' cfg token).1.lateral_offset :=
  fun _ _ _ _ _ _ _ => ⟨rfl, rfl, rfl, rfl, rfl, rfl, rfl, rfl⟩

/-- C5: `bicycle_model.step` first clamps `steer` to
`[-steer_limit, steer_limit]` and `accel` to `[a_min, a_max]` (silently —
there is no failure path), then applies the forward-Euler bicycle update
with the clamped values; and on the spec's example scenario 1 (params
`(2.8, 0.6, -6, 3, 4)`, state `(0,0,0,1)`, `steer = 0`, `accel = 0`,
`dt = 0.1`, for any trig functions with `cos 0 = 1`, `sin 0 = 0`,
`tan 0 = 0`) it returns `(0.1, 0, 0, 1)`. -/
theorem bicycle_step_contract :
    (∀ (trig : TrigOps) (s : VehicleState) (steer accel dt : ℚ) (p : VehicleParams),
        0 ≤ p.steer_limit → p.a_min ≤ p.a_max →
        ∃ σ a, |σ| ≤ p.steer_limit ∧ p.a_min ≤ a ∧ a ≤ p.a_max ∧
          BicycleModel.step trig s steer accel dt p =
            ⟨s.x + s.v * trig.cos s.yaw * dt, s.y + s.v * trig.sin s.yaw * dt,
             s.yaw + s.v / p.wheel_base * trig.tan σ * dt, s.v + a * dt⟩) ∧
    (∀ trig : TrigOps, trig.cos 0 = 1 → trig.sin 0 = 0 → trig.tan 0 = 0 →
        BicycleModel.step trig initEx 0 0 (1/10) paramsEx = ⟨1/10, 0, 0, 1⟩) := by
  constructor
  · intro trig s steer accel dt p hs ha
    refine ⟨max (-p.steer_limit) (min p.steer_limit steer),
      max p.a_min (min p.a_max accel), ?_, le_max_left _ _, ?_, rfl⟩
    · rw [abs_le]
      exact ⟨le_max_left _ _, max_le (by linarith) (min_le_left _ _)⟩
    · exact max_le ha (min_le_left _ _)
  · intro trig hc hs ht
    simp [BicycleModel.step, initEx, paramsEx, VehicleState.mk.injEq, hc, hs]
    norm_num
    exact ht

/-- C5 (witness): the contract instantiated with the degenerate trig
functions, which satisfy the angle-zero hypotheses. -/
theorem bicycle_step_contract_witness :
    (0 ≤ paramsEx.steer_limit ∧ paramsEx.a_min ≤ paramsEx.a_max ∧
      ∃ σ a, |σ| ≤ paramsEx.steer_limit ∧ paramsEx.a_min ≤ a ∧ a ≤ paramsEx.a_max ∧
        BicycleModel.step trigZero initEx 0 0 (1/10) paramsEx =
          ⟨initEx.x + initEx.v * trigZero.cos initEx.yaw * (1/10),
           initEx.y + initEx.v * trigZero.sin initEx.yaw * (1/10),
           initEx.yaw + initEx.v / paramsEx.wheel_base * trigZero.tan σ * (1/10),
           initEx.v + a * (1/10)⟩) ∧
    (trigZero.cos 0 = 1 ∧ trigZero.sin 0 = 0 ∧ trigZero.tan 0 = 0 ∧
      BicycleModel.step trigZero initEx 0 0 (1/10) paramsEx = ⟨1/10, 0, 0, 1⟩) :=
  ⟨⟨by norm_num [paramsEx], by norm_num [paramsEx],
      bicycle_step_contract.1 trigZero initEx 0 0 (1/10) paramsEx
        (by norm_num [paramsEx]) (by norm_num [paramsEx])⟩,
    rfl, rfl, rfl, bicycle_step_contract.2 trigZero rfl rfl rfl⟩

/-- C10: `MapAPI.is_off_road` classifies an empty footprint polygon as
off-road — it returns `true` on the empty point list for every possible
behaviour of the underlying map backend, which is never consulted. -/
theorem is_off_road_empty_true (backend : List (ℚ × ℚ) → Bool) :
    MapAPI.is_off_road backend [] = true := rfl

/-- Helper: the rollout loop always runs its full iteration count. -/
theorem rolloutAux_length {C : Type} (trig : TrigOps) (params : VehicleParams)
    (dt : ℚ) (cf : ControlFn C) (pf : Option (PerturbFn C)) :
    ∀ (n : ℕ) (σ : VehicleState × ℚ × C),
      (Simulator.rolloutAux trig params dt cf pf n σ).length = n := by
  intro n
  induction n with
  | zero => intro σ; rfl
  | succ n ih => intro σ; simp [Simulator.rolloutAux, ih]

/-- Helper: the frame at position `i` of the loop carries time
`t₀ + i * dt` and the vehicle state reached after `i + 1` applications of
the loop-state successor (the post-step state of iteration `i`). -/
theorem rolloutAux_get {C : Type} (trig : TrigOps) (params : VehicleParams)
    (dt : ℚ) (cf : ControlFn C) (pf : Option (PerturbFn C)) :
    ∀ (i n : ℕ) (σ : VehicleState × ℚ × C)
      (h : i < (Simulator.rolloutAux trig params dt cf pf n σ).length),
      ((Simulator.rolloutAux trig params dt cf pf n σ).get ⟨i, h⟩).t = σ.2.1 + i * dt ∧
      ((Simulator.rolloutAux trig params dt cf pf n σ).get ⟨i, h⟩).state =
        ((Simulator.nextLoop trig params dt cf pf)^[i + 1] σ).1 := by
  intro i
  induction i with
  | zero =>
    intro n σ h
    cases n with
    | zero => simp [Simulator.rolloutAux] at h
    | succ n =>
      refine ⟨?_, ?_⟩
      · show (Simulator.oneIter trig params dt cf pf σ).1.t = σ.2.1 + 0 * dt
        simp [Simulator.oneIter]
      · show (Simulator.oneIter trig params dt cf pf σ).1.state =
          ((Simulator.nextLoop trig params dt cf pf)^[1] σ).1
        simp only [Function.iterate_one]
        rfl
  | succ i ih =>
    intro n σ h
    cases n with
    | zero => simp [Simulator.rolloutAux] at h
    | succ n =>
      have h' : i < (Simulator.rolloutAux trig params dt cf pf n
          (Simulator.nextLoop trig params dt cf pf σ)).length := by
        rw [rolloutAux_length]
        have := h
        rw [rolloutAux_length] at this
        omega
      have step := ih n (Simulator.nextLoop trig params dt cf pf σ) h'
      have hget : (Simulator.rolloutAux trig params dt cf pf (n + 1) σ).get ⟨i + 1, h⟩ =
          (Simulator.rolloutAux trig params dt cf pf n
            (Simulator.nextLoop trig params dt cf pf σ)).get ⟨i, h'⟩ := rfl
      rw [hget]
      refine ⟨?_, ?_⟩
      · rw [step.1]
        have ht : (Simulator.nextLoop trig params dt cf pf σ).2.1 = σ.2.1 + dt := rfl
        rw [ht]
        push_cast
        ring
      · rw [step.2, ← Function.iterate_succ_apply]

/-- C6: `Simulator.rollout` returns exactly `steps` frames, whose `t`
fields are `0, dt, 2·dt, …, (steps-1)·dt` in order — a fixed-length loop
with no early termination and no adaptive stepping, for every initial
state, step count, step size, and (stateful) control and perturbation
callbacks. -/
theorem rollout_exact_steps {C : Type} (trig : TrigOps) (params : VehicleParams)
    (init : VehicleState) (steps : ℕ) (dt : ℚ) (cf : ControlFn C)
    (pf : Option (PerturbFn C)) (c0 : C) :
    (Simulator.rollout trig params init steps dt cf pf c0).length = steps ∧
    ∀ i (h : i < (Simulator.rollout trig params init steps dt cf pf c0).length),
      ((Simulator.rollout trig params init steps dt cf pf c0).get ⟨i, h⟩).t = i * dt := by
  refine ⟨rolloutAux_length trig params dt cf pf steps (init, 0, c0), ?_⟩
  intro i h
  have hg := (rolloutAux_get trig params dt cf pf i steps (init, 0, c0) h).1
  simpa [Simulator.rollout] using hg

/-- C6 (witness): a 5-step rollout with the all-zero control function and
`dt = 0.1` (the spec's example scenario 4) has exactly 5 frames, and its
frame at index 2 carries `t = 0.2`. -/
theorem rollout_exact_steps_witness :
    (Simulator.rollout trigZero paramsEx initEx 5 (1/10) ctrlZero Option.none ()).length = 5 ∧
    (Simulator.rollout trigZero paramsEx initEx 5 (1/10) ctrlZero Option.none ())[2]?.map
      SimFrame.t = Option.some ((2 : ℕ) * (1/10 : ℚ)) := by
  have h := rollout_exact_steps trigZero paramsEx initEx 5 (1/10) ctrlZero Option.none ()
  have h2 : 2 < (Simulator.rollout trigZero paramsEx initEx 5 (1/10) ctrlZero
      Option.none ()).length := by
    rw [h.1]; norm_num
  have ht := h.2 2 h2
  refine ⟨h.1, ?_⟩
  rw [List.getElem?_eq_getElem h2]
  exact congrArg Option.some ht

/-- C9: the frame at index `i` of a rollout pairs the time `i * dt` with
the vehicle state produced by `VehicleModel.step` at that very iteration —
the `(i+1)`-st iterate of the loop-state successor — so every returned
frame state is a post-step state, never the caller-supplied pre-step
state of its iteration. -/
theorem rollout_frames_are_post_step {C : Type} (trig : TrigOps)
    (params : VehicleParams) (init : VehicleState) (steps : ℕ) (dt : ℚ)
    (cf : ControlFn C) (pf : Option (PerturbFn C)) (c0 : C) :
    ∀ i (h : i < (Simulator.rollout trig params init steps dt cf pf c0).length),
      ((Simulator.rollout trig params init steps dt cf pf c0).get ⟨i, h⟩).t = i * dt ∧
      ((Simulator.rollout trig params init steps dt cf pf c0).get ⟨i, h⟩).state =
        ((Simulator.nextLoop trig params dt cf pf)^[i + 1] (init, 0, c0)).1 := by
  intro i h
  have hg := rolloutAux_get trig params dt cf pf i steps (init, 0, c0) h
  refine ⟨?_, hg.2⟩
  simpa [Simulator.rollout] using hg.1

/-- C9 (witness): in the concrete 5-step zero-control rollout from
`(0,0,0,1)`, the frame at index 3 holds the state after 4 loop-successor
applications, namely `(0.4, 0, 0, 1)` — not the initial state. -/
theorem rollout_frames_are_post_step_witness :
    (Simulator.rollout trigZero paramsEx initEx 5 (1/10) ctrlZero Option.none ())[3]?.map
      SimFrame.state = Option.some (⟨4/10, 0, 0, 1⟩ : VehicleState) := by
  have hlen : (Simulator.rollout trigZero paramsEx initEx 5 (1/10) ctrlZero
      Option.none ()).length = 5 :=
    rolloutAux_length trigZero paramsEx (1/10) ctrlZero Option.none 5 (initEx, 0, ())
  have h3 : 3 < (Simulator.rollout trigZero paramsEx initEx 5 (1/10) ctrlZero
      Option.none ()).length := by
    rw [hlen]; norm_num
  have hs := (rollout_frames_are_post_step trigZero paramsEx initEx 5 (1/10) ctrlZero
    Option.none () 3 h3).2
  have hv : ((Simulator.nextLoop trigZero paramsEx (1/10) ctrlZero Option.none)^[3 + 1]
      (initEx, 0, ())).1 = (⟨4/10, 0, 0, 1⟩ : VehicleState) := by
    show (Simulator.nextLoop trigZero paramsEx (1/10) ctrlZero Option.none
      (Simulator.nextLoop trigZero paramsEx (1/10) ctrlZero Option.none
        (Simulator.nextLoop trigZero paramsEx (1/10) ctrlZero Option.none
          (Simulator.nextLoop trigZero paramsEx (1/10) ctrlZero Option.none
            (initEx, 0, ()))))).1 = _
    simp only [Simulator.nextLoop, Simulator.oneIter, ctrlZero, trigZero,
      BicycleModel.step, initEx, paramsEx]
    norm_num
  rw [List.getElem?_eq_getElem h3]
  exact congrArg Option.some (hs.trans hv)

/-- C1 (amended): the recovery state machine is forced into `RECOVERING`
for every step whose time lies in the window from the END of the
perturbation through the trailing `window_sec`
(`start_t + duration ≤ t ≤ start_t + duration + window_sec`), regardless
of the magnitudes of `cte` and `heading_err` and of the incoming state:
the recovery branch runs during that step, and after the step the state is
still `RECOVERING` unless the consecutive-good-frame counter reached
`min_frames` at that very step (in which case the machine exits to
`NORMAL` within the forced window). -/
theorem recovery_forced_window (cfg : RecoverCfg) (pt : Perturbation)
    (st : RecoverySt) (i : RecInput)
    (h1 : pt.start_t + pt.duration ≤ i.t)
    (h2 : i.t ≤ pt.start_t + pt.duration + cfg.window_sec) :
    (control_with_recovery cfg pt st i).inRecovery = true ∧
      ((control_with_recovery cfg pt st i).st.okFrames < cfg.min_frames →
        (control_with_recovery cfg pt st i).st.active = true) := by
  unfold control_with_recovery
  simp only [if_pos (And.intro h1 h2), if_true]
  constructor
  · trivial
  · intro hlt
    rw [if_neg (Nat.not_le.mpr hlt)]

/-- C1 (witness): the amended statement at the default thresholds, the
perturbation active on `[0, 1]` with a 2-second trailing window, and a
zero-error step at `t = 3/2` inside the forced window, from the initial
machine state. -/
theorem recovery_forced_window_witness :
    (ptC1.start_t + ptC1.duration ≤ (3/2 : ℚ) ∧
      (3/2 : ℚ) ≤ ptC1.start_t + ptC1.duration + cfgC1.window_sec) ∧
    (control_with_recovery cfgC1 ptC1 recoverInit ⟨3/2, 0, 0, 0, 0, 0⟩).inRecovery = true ∧
      ((control_with_recovery cfgC1 ptC1 recoverInit ⟨3/2, 0, 0, 0, 0, 0⟩).st.okFrames <
          cfgC1.min_frames →
        (control_with_recovery cfgC1 ptC1 recoverInit ⟨3/2, 0, 0, 0, 0, 0⟩).st.active = true) :=
  ⟨⟨by norm_num [ptC1], by norm_num [ptC1, cfgC1]⟩,
    recovery_forced_window cfgC1 ptC1 recoverInit ⟨3/2, 0, 0, 0, 0, 0⟩
      (by norm_num [ptC1]) (by norm_num [ptC1, cfgC1])⟩

/-- C1 (counterexample): with the default thresholds, a perturbation active
on `t ∈ [0, 1]` and a 2-second window, the very first simulation step at
`t = 0` lies in the claimed interval `[start_t, start_t + duration +
window_sec] = [0, 3]`, yet after processing that step (zero tracking
errors, initial machine state) the controller is NOT in `RECOVERING`: the
source only forces recovery from `start_t + duration` on (line 247), not
from `start_t`. -/
theorem recovery_not_forced_at_perturbation_start :
    (ptC1.start_t ≤ (0 : ℚ) ∧
      (0 : ℚ) ≤ ptC1.start_t + ptC1.duration + cfgC1.window_sec) ∧
    (runRecovery cfgC1 ptC1 recoverInit [iC1]).active = false := by
  refine ⟨⟨by norm_num [ptC1], by norm_num [ptC1, cfgC1]⟩, ?_⟩
  show (control_with_recovery cfgC1 ptC1 recoverInit iC1).st.active = false
  norm_num [control_with_recovery, cfgC1, ptC1, iC1, recoverInit]

/-- Helper: when the machine is already `RECOVERING`, a step always runs the
recovery branch, increments the counter on a good frame and zeroes it on a
bad one, and stays `RECOVERING` unless the counter reaches `min_frames`. -/
theorem control_with_recovery_of_active (cfg : RecoverCfg) (pt : Perturbation)
    (st : RecoverySt) (i : RecInput) (h : st.active = true) :
    (control_with_recovery cfg pt st i).inRecovery = true ∧
    (control_with_recovery cfg pt st i).st =
      ⟨if cfg.min_frames ≤ (if goodFrame cfg i then st.okFrames + 1 else 0) then false else true,
       if goodFrame cfg i then st.okFrames + 1 else 0⟩ := by
  unfold control_with_recovery goodFrame
  rw [h]
  simp only [ite_self, if_true]
  exact ⟨trivial, trivial⟩

/-- Helper: the consecutive-good-frame count grows by at most the number of
frames processed. -/
theorem consecGood_le (cfg : RecoverCfg) :
    ∀ (L : List RecInput) (c : ℕ), consecGood cfg c L ≤ c + L.length := by
  intro L
  induction L with
  | nil => intro c; simp [consecGood]
  | cons i rest ih =>
    intro c
    show consecGood cfg (if goodFrame cfg i then c + 1 else 0) rest ≤ c + (rest.length + 1)
    refine le_trans (ih _) ?_
    by_cases hg : goodFrame cfg i
    · rw [if_pos hg]; omega
    · rw [if_neg hg]; omega

/-- Helper: the last `consecGood c L` frames of `L` are all good — the count
really measures a suffix of consecutive good frames. -/
theorem consecGood_suffix (cfg : RecoverCfg) :
    ∀ (L : List RecInput) (c : ℕ) (j : ℕ) (hj : j < L.length),
      L.length - consecGood cfg c L ≤ j → goodFrame cfg (L.get ⟨j, hj⟩) := by
  intro L
  induction L with
  | nil => intro c j hj; simp at hj
  | cons i rest ih =>
    intro c j hj hge
    have hcg : consecGood cfg c (i :: rest) =
        consecGood cfg (if goodFrame cfg i then c + 1 else 0) rest := rfl
    cases j with
    | zero =>
      show goodFrame cfg i
      by_cases hgi : goodFrame cfg i
      · exact hgi
      · exfalso
        rw [hcg, if_neg hgi] at hge
        have hle := consecGood_le cfg rest 0
        simp only [List.length_cons] at hge
        omega
    | succ j =>
      rw [hcg] at hge
      simp only [List.length_cons] at hge
      exact ih (if goodFrame cfg i then c + 1 else 0) j (by simpa using hj) (by omega)

/-- Helper: while the machine stays `RECOVERING` throughout a step sequence,
its counter evolves exactly as the consecutive-good-frame count of the
sequence, carried in from its value at the start. -/
theorem runRecovery_okFrames (cfg : RecoverCfg) (pt : Perturbation) :
    ∀ (L : List RecInput) (st : RecoverySt), st.active = true →
      (∀ k, k < L.length → (runRecovery cfg pt st (L.take k)).active = true) →
      (runRecovery cfg pt st L).okFrames = consecGood cfg st.okFrames L := by
  intro L
  induction L with
  | nil => intro st h _; rfl
  | cons i rest ih =>
    intro st h hpre
    have hstep := control_with_recovery_of_active cfg pt st i h
    have hrun : runRecovery cfg pt st (i :: rest) =
        runRecovery cfg pt (control_with_recovery cfg pt st i).st rest := rfl
    have hcg : consecGood cfg st.okFrames (i :: rest) =
        consecGood cfg (if goodFrame cfg i then st.okFrames + 1 else 0) rest := rfl
    cases rest with
    | nil =>
      rw [hrun, hstep.2]
      show (if goodFrame cfg i then st.okFrames + 1 else 0) = _
      rw [hcg]
      rfl
    | cons r rs =>
      have hact1 : (control_with_recovery cfg pt st i).st.active = true := by
        have := hpre 1 (by simp)
        exact this
      rw [hrun, hcg]
      have hok1 : (control_with_recovery cfg pt st i).st.okFrames =
          (if goodFrame cfg i then st.okFrames + 1 else 0) := by rw [hstep.2]
      rw [← hok1]
      refine ih (control_with_recovery cfg pt st i).st hact1 ?_
      intro k hk
      have := hpre (k + 1) (by simpa using Nat.succ_lt_succ hk)
      exact this

/-- Helper: the machine leaves `RECOVERING` only when its counter has
reached `min_frames`. -/
theorem runRecovery_exit (cfg : RecoverCfg) (pt : Perturbation) :
    ∀ (L : List RecInput) (st : RecoverySt), st.active = true →
      (∀ k, k < L.length → (runRecovery cfg pt st (L.take k)).active = true) →
      (runRecovery cfg pt st L).active = false →
      cfg.min_frames ≤ (runRecovery cfg pt st L).okFrames := by
  intro L
  induction L with
  | nil =>
    intro st h _ hfin
    rw [show runRecovery cfg pt st [] = st from rfl] at hfin
    rw [h] at hfin
    exact absurd hfin (by simp)
  | cons i rest ih =>
    intro st h hpre hfin
    have hstep := control_with_recovery_of_active cfg pt st i h
    have hrun : runRecovery cfg pt st (i :: rest) =
        runRecovery cfg pt (control_with_recovery cfg pt st i).st rest := rfl
    cases rest with
    | nil =>
      rw [hrun] at hfin ⊢
      show cfg.min_frames ≤ (control_with_recovery cfg pt st i).st.okFrames
      have hfin1 : (control_with_recovery cfg pt st i).st.active = false := hfin
      rw [hstep.2] at hfin1 ⊢
      by_cases hm : cfg.min_frames ≤ (if goodFrame cfg i then st.okFrames + 1 else 0)
      · exact hm
      · rw [if_neg hm] at hfin1
        exact absurd hfin1 (by simp)
    | cons r rs =>
      have hact1 : (control_with_recovery cfg pt st i).st.active = true := by
        have := hpre 1 (by simp)
        exact this
      rw [hrun] at hfin ⊢
      refine ih (control_with_recovery cfg pt st i).st hact1 ?_ hfin
      intro k hk
      have := hpre (k + 1) (by simpa using Nat.succ_lt_succ hk)
      exact this

/-- C2 (amended): recovery hysteresis with the carried-over counter.  (1)
Whenever the machine is in `RECOVERING` with counter value `c` and stays
there until it returns to `NORMAL`, the consecutive-good-frame count of
the processed steps (carried in from `c`, reset by every bad frame) must
have reached `min_frames` — in particular, after an entry that zeroed the
counter (any entry on a bad frame, and the first entry of a rollout), at
least `min_frames` consecutive good frames are required, and the frames
immediately before the exit are all good.  (2) When `min_frames ≥ 1`, a
bad frame never causes the exit, so a single good frame followed by a bad
one cannot leave `RECOVERING`.  (3) The counter is incremented by a good
frame and reset only by a bad frame while the recovery branch runs, and is
untouched otherwise.  (The counter is, however, NOT reset upon entering
`RECOVERING`, so a re-entry on a good frame with a stale counter
`≥ min_frames` exits in the same step; see the counterexample.) -/
theorem recovery_hysteresis (cfg : RecoverCfg) (pt : Perturbation) :
    (∀ (st : RecoverySt) (L : List RecInput),
        st.active = true → st.okFrames = 0 →
        (∀ k, k < L.length → (runRecovery cfg pt st (L.take k)).active = true) →
        (runRecovery cfg pt st L).active = false →
        cfg.min_frames ≤ consecGood cfg 0 L ∧
        ∀ j (hj : j < L.length),
          L.length - consecGood cfg 0 L ≤ j → goodFrame cfg (L.get ⟨j, hj⟩)) ∧
    (∀ (st : RecoverySt) (i : RecInput), 1 ≤ cfg.min_frames → st.active = true →
        ¬ goodFrame cfg i → (control_with_recovery cfg pt st i).st.active = true) ∧
    (∀ (st : RecoverySt) (i : RecInput),
        ((control_with_recovery cfg pt st i).inRecovery = true →
          (control_with_recovery cfg pt st i).st.okFrames =
            if goodFrame cfg i then st.okFrames + 1 else 0) ∧
        ((control_with_recovery cfg pt st i).inRecovery = false →
          (control_with_recovery cfg pt st i).st.okFrames = st.okFrames)) := by
  refine ⟨?_, ?_, ?_⟩
  · intro st L hact hzero hpre hfin
    have hok := runRecovery_okFrames cfg pt L st hact hpre
    have hexit := runRecovery_exit cfg pt L st hact hpre hfin
    rw [hok, hzero] at hexit
    exact ⟨hexit, fun j hj hge => consecGood_suffix cfg L 0 j hj hge⟩
  · intro st i hmf hact hbad
    have hstep := control_with_recovery_of_active cfg pt st i hact
    rw [hstep.2]
    show (if cfg.min_frames ≤ (if goodFrame cfg i then st.okFrames + 1 else 0)
      then false else true) = true
    rw [if_neg hbad, if_neg (by omega)]
  · intro st i
    unfold control_with_recovery goodFrame
    by_cases h2 : pt.start_t + pt.duration ≤ i.t ∧
        i.t ≤ pt.start_t + pt.duration + cfg.window_sec
    · simp only [if_pos h2, if_true]
      simp
    · by_cases h1 : |i.cte| > cfg.cte_threshold ∨ |i.heading_err| > cfg.yaw_threshold
      · simp only [if_neg h2, if_pos h1, if_true]
        simp
      · by_cases h3 : st.active = true
        · simp only [if_neg h2, if_neg h1, if_pos h3]
          simp
        · simp only [if_neg h2, if_neg h1, if_neg h3]
          simp

/-- C2 (witness): part (1) applied to a fresh recovery episode (state
`RECOVERING`, counter `0`) under the fixture with `min_frames = 2` that
stays recovering for one good step and exits at the second: the exit needs
`2 ≤ consecGood`, and the trailing frames are good; part (2) applied to a
bad frame, which keeps the machine in `RECOVERING`. -/
theorem recovery_hysteresis_witness :
    ((⟨true, 0⟩ : RecoverySt).active = true ∧ (⟨true, 0⟩ : RecoverySt).okFrames = 0 ∧
      (∀ k, k < ([iGood, iGood] : List RecInput).length →
        (runRecovery cfgC2 ptC2 ⟨true, 0⟩ ([iGood, iGood].take k)).active = true) ∧
      (runRecovery cfgC2 ptC2 ⟨true, 0⟩ [iGood, iGood]).active = false ∧
      (cfgC2.min_frames ≤ consecGood cfgC2 0 [iGood, iGood] ∧
        ∀ j (hj : j < ([iGood, iGood] : List RecInput).length),
          ([iGood, iGood] : List RecInput).length - consecGood cfgC2 0 [iGood, iGood] ≤ j →
            goodFrame cfgC2 ([iGood, iGood].get ⟨j, hj⟩))) ∧
    (1 ≤ cfgC2.min_frames ∧ ¬ goodFrame cfgC2 iBad ∧
      (control_with_recovery cfgC2 ptC2 ⟨true, 0⟩ iBad).st.active = true) := by
  have hpre : ∀ k, k < ([iGood, iGood] : List RecInput).length →
      (runRecovery cfgC2 ptC2 ⟨true, 0⟩ ([iGood, iGood].take k)).active = true := by
    intro k hk
    have hk2 : k < 2 := by simpa using hk
    interval_cases k
    · norm_num [runRecovery]
    · norm_num [runRecovery, control_with_recovery, cfgC2, ptC2, iGood]
  have hfin : (runRecovery cfgC2 ptC2 ⟨true, 0⟩ [iGood, iGood]).active = false := by
    norm_num [runRecovery, control_with_recovery, cfgC2, ptC2, iGood]
  have hbad : ¬ goodFrame cfgC2 iBad := by
    norm_num [goodFrame, cfgC2, iBad]
  refine ⟨⟨rfl, rfl, hpre, hfin, ?_⟩, ⟨by norm_num [cfgC2], hbad, ?_⟩⟩
  · exact (recovery_hysteresis cfgC2 ptC2).1 ⟨true, 0⟩ [iGood, iGood] rfl rfl hpre hfin
  · exact (recovery_hysteresis cfgC2 ptC2).2.1 ⟨true, 0⟩ iBad (by norm_num [cfgC2]) rfl hbad

/-- C2 (counterexample): with `min_frames = 2` and a zero-length
perturbation at `t = 0` (forced window `[0, 0.2]`), after two good steps
the machine has exited to `NORMAL` with a stale counter of `2`; the step
at `t = 0.2` then re-enters `RECOVERING` (the forced window applies, and
the recovery branch runs) and returns to `NORMAL` within that same single
good step — only one good frame occurred between this entry and the exit,
not the `min_frames = 2` consecutive good frames the claim requires,
because the counter is not reset on entry. -/
theorem recovery_reenter_exits_in_one_step :
    cfgC2.min_frames = 2 ∧
    (runRecovery cfgC2 ptC2 recoverInit [iC2a, iC2b]).active = false ∧
    (runRecovery cfgC2 ptC2 recoverInit [iC2a, iC2b]).okFrames = 2 ∧
    (control_with_recovery cfgC2 ptC2
      (runRecovery cfgC2 ptC2 recoverInit [iC2a, iC2b]) iC2c).inRecovery = true ∧
    (control_with_recovery cfgC2 ptC2
      (runRecovery cfgC2 ptC2 recoverInit [iC2a, iC2b]) iC2c).st.active = false ∧
    goodFrame cfgC2 iC2c ∧
    ptC2.start_t + ptC2.duration ≤ iC2c.t ∧
    iC2c.t ≤ ptC2.start_t + ptC2.duration + cfgC2.window_sec := by
  refine ⟨rfl, ?_, ?_, ?_, ?_, ?_, ?_, ?_⟩ <;>
    norm_num [runRecovery, control_with_recovery, goodFrame, recoverInit,
      cfgC2, ptC2, iC2a, iC2b, iC2c]

/-- Helper: the per-agent update leaves the running minimum TTC unchanged
when the relative speed is not a closing speed above `0.1`. -/
theorem agentUpd_min_ttc_not_closing (trig : TrigOps) (ora : LabelOracles)
    (cfg : LabelCfg) (sim : SimFrame) (egoPoly : List (ℚ × ℚ)) (acc : LabelAcc)
    (ag : AgentState) (h : sim.state.v - ag.v ≤ 1 / 10) :
    (agentUpd trig ora cfg sim egoPoly acc ag).min_ttc = acc.min_ttc := by
  unfold agentUpd
  simp only [if_neg (not_lt.mpr h)]

/-- Helper: the inner agent loop leaves the running minimum TTC unchanged
when no agent of the frame is closing. -/
theorem foldl_agentUpd_min_ttc (trig : TrigOps) (ora : LabelOracles)
    (cfg : LabelCfg) (sim : SimFrame) (egoPoly : List (ℚ × ℚ)) :
    ∀ (ags : List AgentState) (acc : LabelAcc),
      (∀ ag ∈ ags, sim.state.v - ag.v ≤ 1 / 10) →
      (ags.foldl (agentUpd trig ora cfg sim egoPoly) acc).min_ttc = acc.min_ttc := by
  intro ags
  induction ags with
  | nil => intro acc _; rfl
  | cons ag rest ih =>
    intro acc h
    show (rest.foldl (agentUpd trig ora cfg sim egoPoly)
      (agentUpd trig ora cfg sim egoPoly acc ag)).min_ttc = acc.min_ttc
    rw [ih _ fun a ha => h a (List.mem_cons_of_mem ag ha)]
    exact agentUpd_min_ttc_not_closing trig ora cfg sim egoPoly acc ag
      (h ag (List.mem_cons_self ag rest))

/-- Helper: the per-frame update leaves the running minimum TTC unchanged
when no agent of the matching scenario frame is closing. -/
theorem frameUpd_min_ttc_not_closing (trig : TrigOps) (ora : LabelOracles)
    (cfg : LabelCfg) (scens : List Frame) (acc : LabelAcc) (iv : ℕ × SimFrame)
    (h : ∀ ag ∈ agentsAt scens iv.1, iv.2.state.v - ag.v ≤ 1 / 10) :
    (frameUpd trig ora cfg scens acc iv).min_ttc = acc.min_ttc := by
  unfold frameUpd
  by_cases hr : cfg.recover_time ≤ iv.2.t <;>
    simp only [hr, if_pos, if_neg, ite_true, ite_false, if_true, if_false] <;>
    exact foldl_agentUpd_min_ttc trig ora cfg iv.2 _ _ _ h

/-- C7: the running minimum TTC is updated only at frame/agent pairs whose
relative speed `ego.v - agent.v` exceeds `0.1` (first conjunct: a
non-closing pair never changes it), and when no pair in the whole rollout
is closing, `Labeler.compute` returns `min_ttc = +infinity`
(`Option.none`). -/
theorem labeler_min_ttc_closing_only :
    (∀ (trig : TrigOps) (ora : LabelOracles) (cfg : LabelCfg) (sim : SimFrame)
        (egoPoly : List (ℚ × ℚ)) (acc : LabelAcc) (ag : AgentState),
        sim.state.v - ag.v ≤ 1 / 10 →
        (agentUpd trig ora cfg sim egoPoly acc ag).min_ttc = acc.min_ttc) ∧
    (∀ (trig : TrigOps) (ora : LabelOracles) (cfg : LabelCfg)
        (sims : List SimFrame) (scens : List Frame),
        (∀ i (h : i < sims.length), ∀ ag ∈ agentsAt scens i,
            (sims.get ⟨i, h⟩).state.v - ag.v ≤ 1 / 10) →
        (Labeler.compute trig ora cfg sims scens).min_ttc = Option.none) := by
  refine ⟨agentUpd_min_ttc_not_closing, ?_⟩
  intro trig ora cfg sims scens hyp
  have hmem : ∀ p ∈ sims.enum, ∀ ag ∈ agentsAt scens p.1,
      p.2.state.v - ag.v ≤ 1 / 10 := by
    intro p hp
    have hp' := List.mem_enum_iff_getElem?.mp hp
    have hlt : p.1 < sims.length := by
      have := List.getElem?_eq_some.mp hp'
      exact this.1
    have hpv : sims.get ⟨p.1, hlt⟩ = p.2 := by
      have := List.getElem?_eq_some.mp hp'
      simpa [List.get_eq_getElem] using this.2
    rw [← hpv]
    exact hyp p.1 hlt
  show (sims.enum.foldl (frameUpd trig ora cfg scens) labelInit).min_ttc = Option.none
  have hfold : ∀ (l : List (ℕ × SimFrame)) (acc : LabelAcc),
      (∀ p ∈ l, ∀ ag ∈ agentsAt scens p.1, p.2.state.v - ag.v ≤ 1 / 10) →
      (l.foldl (frameUpd trig ora cfg scens) acc).min_ttc = acc.min_ttc := by
    intro l
    induction l with
    | nil => intro acc _; rfl
    | cons p rest ih =>
      intro acc h
      show (rest.foldl (frameUpd trig ora cfg scens)
        (frameUpd trig ora cfg scens acc p)).min_ttc = acc.min_ttc
      rw [ih _ fun q hq => h q (List.mem_cons_of_mem p hq)]
      exact frameUpd_min_ttc_not_closing trig ora cfg scens acc p
        (h p (List.mem_cons_self p rest))
  exact hfold sims.enum labelInit hmem

/-- C7 (witness): a one-frame rollout against a scenario frame whose single
agent moves at the ego's speed (relative speed `0`, not closing): the
hypothesis holds and the computed `min_ttc` is `+infinity`. -/
theorem labeler_min_ttc_closing_only_witness :
    (∀ i (h : i < ([frameW] : List SimFrame).length), ∀ ag ∈ agentsAt [scenW] i,
        (([frameW] : List SimFrame).get ⟨i, h⟩).state.v - ag.v ≤ 1 / 10) ∧
    (Labeler.compute trigZero oraZero cfgLbl [frameW] [scenW]).min_ttc = Option.none := by
  have hyp : ∀ i (h : i < ([frameW] : List SimFrame).length), ∀ ag ∈ agentsAt [scenW] i,
      (([frameW] : List SimFrame).get ⟨i, h⟩).state.v - ag.v ≤ 1 / 10 := by
    intro i h ag hag
    have hi : i = 0 := by
      simpa [Nat.lt_one_iff] using h
    subst hi
    have hag' : ag = agentW := by
      simpa [agentsAt, scenW] using hag
    subst hag'
    norm_num [frameW, agentW]
  exact ⟨hyp, labeler_min_ttc_closing_only.2 trigZero oraZero cfgLbl [frameW] [scenW] hyp⟩

/-- Helper: `ttcLE` is reflexive. -/
theorem ttcLE_refl : ∀ x : Option ℚ, ttcLE x x := by
  intro x
  cases x <;> simp [ttcLE]

/-- Helper: `ttcLE` is transitive. -/
theorem ttcLE_trans : ∀ {x y z : Option ℚ}, ttcLE x y → ttcLE y z → ttcLE x z := by
  intro x y z h1 h2
  cases x <;> cases y <;> cases z <;> simp_all [ttcLE]
  exact le_trans h1 h2

/-- Helper: the label-accumulator progress order is reflexive. -/
theorem labelAccLE_refl (a : LabelAcc) : labelAccLE a a :=
  ⟨id, id, id, ttcLE_refl a.min_ttc⟩

/-- Helper: the label-accumulator progress order is transitive. -/
theorem labelAccLE_trans {a b c : LabelAcc} (h1 : labelAccLE a b)
    (h2 : labelAccLE b c) : labelAccLE a c :=
  ⟨fun h => h2.1 (h1.1 h), fun h => h2.2.1 (h1.2.1 h),
    fun h => h2.2.2.1 (h1.2.2.1 h), ttcLE_trans h2.2.2.2 h1.2.2.2⟩

/-- Helper: folding one candidate into the running minimum never increases
it. -/
theorem updMin_le (m : Option ℚ) (q : ℚ) : ttcLE (updMin m q) m := by
  cases m with
  | none => simp [updMin, ttcLE]
  | some a => simp [updMin, ttcLE]

/-- Helper: the per-agent update only makes progress: sticky collision, and
a non-increasing minimum TTC. -/
theorem agentUpd_progress (trig : TrigOps) (ora : LabelOracles) (cfg : LabelCfg)
    (sim : SimFrame) (egoPoly : List (ℚ × ℚ)) (acc : LabelAcc) (ag : AgentState) :
    labelAccLE acc (agentUpd trig ora cfg sim egoPoly acc ag) := by
  unfold agentUpd
  refine ⟨?_, fun h => h, fun h => h, ?_⟩
  · intro h
    by_cases hI : ora.intersects egoPoly
        (box_polygon trig ag.x ag.y ag.yaw
          (if ag.length > 0 then ag.length else cfg.agent_length)
          (if ag.width > 0 then ag.width else cfg.agent_width)) = true
    · simp [hI]
    · simp [hI, h]
  · by_cases hr : sim.state.v - ag.v > 1 / 10
    · simp only [if_pos hr]
      exact updMin_le acc.min_ttc _
    · simp only [if_neg hr]
      exact ttcLE_refl acc.min_ttc

/-- Helper: the inner agent loop only makes progress. -/
theorem foldl_agentUpd_progress (trig : TrigOps) (ora : LabelOracles)
    (cfg : LabelCfg) (sim : SimFrame) (egoPoly : List (ℚ × ℚ)) :
    ∀ (ags : List AgentState) (acc : LabelAcc),
      labelAccLE acc (ags.foldl (agentUpd trig ora cfg sim egoPoly) acc) := by
  intro ags
  induction ags with
  | nil => intro acc; exact labelAccLE_refl acc
  | cons ag rest ih =>
    intro acc
    exact labelAccLE_trans (agentUpd_progress trig ora cfg sim egoPoly acc ag)
      (ih (agentUpd trig ora cfg sim egoPoly acc ag))

/-- Helper: or-ing a new observation into a sticky boolean only makes
progress. -/
theorem off_road_or_progress (acc : LabelAcc) (b : Bool) :
    labelAccLE acc { acc with off_road := acc.off_road || b } := by
  refine ⟨fun h => h, ?_, fun h => h, ttcLE_refl acc.min_ttc⟩
  intro h
  simp [h]

/-- Helper: replacing the recovered flag by any value it implies only makes
progress. -/
theorem recovered_set_progress (acc : LabelAcc) (r : Bool)
    (hr : acc.recovered = true → r = true) :
    labelAccLE acc { acc with recovered := r } :=
  ⟨fun h => h, fun h => h, hr, ttcLE_refl acc.min_ttc⟩

/-- Helper: the per-frame update only makes progress: sticky `collision`,
`off_road` and `is_recovered`, non-increasing minimum TTC. -/
theorem frameUpd_progress (trig : TrigOps) (ora : LabelOracles) (cfg : LabelCfg)
    (scens : List Frame) (acc : LabelAcc) (iv : ℕ × SimFrame) :
    labelAccLE acc (frameUpd trig ora cfg scens acc iv) := by
  unfold frameUpd
  refine labelAccLE_trans (labelAccLE_trans (off_road_or_progress acc
    (ora.is_off_road (box_polygon trig iv.2.state.x iv.2.state.y iv.2.state.yaw
      cfg.ego_length cfg.ego_width)))
    (foldl_agentUpd_progress trig ora cfg iv.2 _ (agentsAt scens iv.1) _))
    (recovered_set_progress _ _ ?_)
  intro h
  by_cases hb : cfg.recover_time ≤ iv.2.t
  · simp only [if_pos hb]
    split
    · rfl
    · exact h
  · simpa [if_neg hb] using h

/-- Helper: the per-frame fold only makes progress. -/
theorem foldl_frameUpd_progress (trig : TrigOps) (ora : LabelOracles)
    (cfg : LabelCfg) (scens : List Frame) :
    ∀ (l : List (ℕ × SimFrame)) (acc : LabelAcc),
      labelAccLE acc (l.foldl (frameUpd trig ora cfg scens) acc) := by
  intro l
  induction l with
  | nil => intro acc; exact labelAccLE_refl acc
  | cons p rest ih =>
    intro acc
    exact labelAccLE_trans (frameUpd_progress trig ora cfg scens acc p)
      (ih (frameUpd trig ora cfg scens acc p))

/-- C8: within one `Labeler.compute` call the accumulators are monotone: the
running accumulator after `i` frames precedes the one after `j ≥ i` frames
in the progress order (sticky `collision` / `off_road` / `is_recovered`,
non-increasing `min_ttc`); the run starts from `min_ttc = +infinity`; and
the returned `Labels` are exactly the accumulator after all frames. -/
theorem labeler_monotone (trig : TrigOps) (ora : LabelOracles) (cfg : LabelCfg)
    (sims : List SimFrame) (scens : List Frame) :
    (∀ i j, i ≤ j →
        labelAccLE (labelAccAt trig ora cfg sims scens i)
          (labelAccAt trig ora cfg sims scens j)) ∧
    labelAccAt trig ora cfg sims scens 0 = labelInit ∧
    Labeler.compute trig ora cfg sims scens =
      ⟨(labelAccAt trig ora cfg sims scens sims.length).collision,
       (labelAccAt trig ora cfg sims scens sims.length).off_road,
       (labelAccAt trig ora cfg sims scens sims.length).recovered,
       (labelAccAt trig ora cfg sims scens sims.length).min_ttc⟩ := by
  refine ⟨?_, rfl, ?_⟩
  · intro i j hij
    unfold labelAccAt
    rw [show j = i + (j - i) by omega, List.take_add, List.foldl_append]
    exact foldl_frameUpd_progress trig ora cfg scens _ _
  · unfold Labeler.compute labelAccAt
    rw [show sims.length = sims.enum.length by rw [List.enum_length], List.take_length]

/-- C8 (witness): the monotonicity statement applied at prefix indices
`0 ≤ 1` of a concrete one-frame labeling run. -/
theorem labeler_monotone_witness :
    (0 : ℕ) ≤ 1 ∧
    labelAccLE (labelAccAt trigZero oraZero cfgLbl [frameW] [scenW] 0)
      (labelAccAt trigZero oraZero cfgLbl [frameW] [scenW] 1) :=
  ⟨Nat.zero_le 1,
    (labeler_monotone trigZero oraZero cfgLbl [frameW] [scenW]).1 0 1 (Nat.zero_le 1)⟩
